import Mathlib

/-!
Verification of the Anoma node shell (`src/ledger/src/bin/anoma-node/shell/mod.rs`)
against its natural-language specification.

The shell module itself is embedded faithfully from the Rust source.  Its
collaborators (the gas meter, the write log, the storage layer, the
transaction/predicate runners and the wire decoder) live outside the given
source tree and are modelled from the specification; each such definition
carries a doc comment starting with `Modelled from the spec:`.
-/

set_option maxRecDepth 4000

namespace AnomaShell

/-- Raw bytes are modelled as lists of naturals. -/
abbrev Bytes := List Nat

/-- Modelled from the spec: §3 Address "identifies an account"; the
Validator/Basic variant tag is irrelevant to every claim, so an address is
its account name string (`Address::new_address`). -/
abbrev Address := String

/-- Modelled from the spec: §3 StorageKey — "pair (Address, sub-key string)
naming a mutable storage location". -/
structure StorageKey where
  addr : Address
  key : String
deriving DecidableEq, Repr

/-- Modelled from the spec: §6 transaction wire format — "an envelope
containing executable code and an optional opaque data payload"
(`anoma::protobuf::types::Tx`). -/
structure Tx where
  code : Bytes
  data : Option Bytes
deriving DecidableEq, Repr

/-- Modelled from the spec: §4.3 Write Log entry — a pending
(StorageKey → byte value) write (`some v`) or delete (`none`). -/
abbrev LogEntry := StorageKey × Option Bytes

/-- Modelled from the spec: §4.3 Write Log — a transaction-scoped pending
buffer (`pending`, the in-flight transaction's staged mutations) layered
over a block-scoped accumulated log (`blockLog`, the committed-but-unflushed
entries). -/
structure WriteLog where
  pending : List LogEntry
  blockLog : List LogEntry
deriving DecidableEq, Repr

/-- Modelled from the spec: `WriteLog::new` — both buffers start empty. -/
def WriteLog.new : WriteLog := { pending := [], blockLog := [] }

/-- Staging helper: the transaction runner appends its mutations to the
in-flight buffer (spec §4.3 `stage` / `stage_delete`). -/
def WriteLog.stagePending (wl : WriteLog) (es : List LogEntry) : WriteLog :=
  { wl with pending := wl.pending ++ es }

/-- Modelled from the spec: §4.3 `commit_tx()` — "moves all pending mutations
for the current transaction into a block-scoped accumulated log". -/
def WriteLog.commitTx (wl : WriteLog) : WriteLog :=
  { pending := [], blockLog := wl.blockLog ++ wl.pending }

/-- Modelled from the spec: §4.3 `drop_tx()` — "discards the in-flight
transaction's pending mutations, leaving prior committed-but-unflushed state
untouched". -/
def WriteLog.dropTx (wl : WriteLog) : WriteLog :=
  { wl with pending := [] }

/-- Modelled from the spec: §4.3 `get_changed_keys()` — "returns the set of
keys touched by the in-flight transaction". -/
def WriteLog.getChangedKey (wl : WriteLog) : List StorageKey :=
  (wl.pending.map Prod.fst).dedup

/-- Modelled from the spec: §4.5 Storage — durable, height-versioned,
Merkle-committed key/value store; the fields consumed by the shell:
a chain id set exactly once, the working block hash/height, the committed
store and the last durably committed (root, height). -/
structure Storage where
  chainId : Option String
  blockHash : Bytes
  blockHeight : Nat
  store : List (StorageKey × Bytes)
  lastCommitted : Option (Bytes × Nat)
deriving DecidableEq, Repr

/-- Modelled from the spec: a fresh storage (the DB starts empty). -/
def Storage.empty : Storage :=
  { chainId := none, blockHash := [], blockHeight := 0, store := [],
    lastCommitted := none }

/-- Association-list update used by `Storage.write`. -/
def storeWrite : List (StorageKey × Bytes) → StorageKey → Bytes →
    List (StorageKey × Bytes)
  | [], k, v => [(k, v)]
  | (k0, v0) :: rest, k, v =>
    if k0 = k then (k, v) :: rest else (k0, v0) :: storeWrite rest k v

/-- Association-list removal used by `Storage.delete`. -/
def storeDelete : List (StorageKey × Bytes) → StorageKey →
    List (StorageKey × Bytes)
  | [], _ => []
  | (k0, v0) :: rest, k =>
    if k0 = k then storeDelete rest k else (k0, v0) :: storeDelete rest k

/-- Modelled from the spec: §4.5 `write(addr, subkey, bytes)`. -/
def Storage.write (st : Storage) (addr : Address) (key : String) (v : Bytes) :
    Storage :=
  { st with store := storeWrite st.store ⟨addr, key⟩ v }

/-- Modelled from the spec: §4.3 — a staged delete removes the key when the
block log is flushed into storage. -/
def Storage.delete (st : Storage) (addr : Address) (key : String) : Storage :=
  { st with store := storeDelete st.store ⟨addr, key⟩ }

/-- Modelled from the spec: §4.5 `begin_block(hash, height)` — advances the
working block hash and height. -/
def Storage.beginBlock (st : Storage) (hash : Bytes) (height : Nat) : Storage :=
  { st with blockHash := hash, blockHeight := height }

/-- Modelled from the spec: §4.1 InitChain — "sets Chain Id in Storage exactly
once; fails if Storage rejects the write (e.g., already set)". -/
def Storage.setChainId (st : Storage) (id : String) : Except String Storage :=
  match st.chainId with
  | none => .ok { st with chainId := some id }
  | some _ => .error "chain id already set"

/-- Encoding of one committed entry, used by the Merkle-root summary. -/
def encodeEntry (kv : StorageKey × Bytes) : Bytes :=
  [kv.1.addr.length, kv.1.key.length, kv.2.length] ++ kv.2

/-- Modelled from the spec: §3 Merkle Root — "a fixed-size byte sequence
summarizing committed Storage state"; an opaque deterministic function of the
committed store (the tree implementation is an external collaborator). -/
def merkleRoot (st : Storage) : Bytes :=
  st.store.foldl (fun acc kv => acc ++ encodeEntry kv) []

/-- Applying one block-log entry to storage (write or delete). -/
def Storage.applyEntry (st : Storage) (e : LogEntry) : Storage :=
  match e.2 with
  | some v => st.write e.1.addr e.1.key v
  | none => st.delete e.1.addr e.1.key

/-- Modelled from the spec: §4.3 `commit_block(storage)` — "atomically applies
the entire block-scoped accumulated log to Storage and clears it". -/
def WriteLog.commitBlock (wl : WriteLog) (st : Storage) : Storage × WriteLog :=
  (wl.blockLog.foldl Storage.applyEntry st, { wl with blockLog := [] })

/-- Modelled from the spec: §4.4 gas errors — exceeding the per-transaction
limit (at the base-fee charge) and exceeding the block limit (at
finalization) are distinct error conditions (§4.2 steps 1 and 7). -/
inductive GasErr
  | txGasExceeded
  | blockGasExceeded
deriving DecidableEq, Repr

/-- Modelled from the spec: §3 Gas Meter — "two counters — block-scoped total
and transaction-scoped running total". -/
structure BlockGasMeter where
  blockGas : Nat
  txGas : Nat
deriving DecidableEq, Repr

/-- Modelled from the spec: `BlockGasMeter::default()` — both counters zero. -/
def BlockGasMeter.default : BlockGasMeter := { blockGas := 0, txGas := 0 }

/-- Modelled from the spec: §4.4 `reset()` — "zeroes the block counter at
`begin_block`". -/
def BlockGasMeter.reset (gm : BlockGasMeter) : BlockGasMeter :=
  { gm with blockGas := 0 }

/-- The error enum of `shell/mod.rs` (lines 23-43).  Payloads that only feed
`Display` formatting are kept as the data the shell actually stores. -/
inductive Error
  | temporary (error : String)
  | removeDB
  | storageError (e : String)
  | abciChannelRecvError
  | abciChannelSendError (s : String)
  | txDecodingError
  | txRunnerError
  | vpRunnerError (addr : Address)
  | gasError (e : GasErr)
deriving DecidableEq, Repr

/-- The type of the predicate-runner collaborator: arguments mirror
`VpRunner::run(vp, tx_data, addr, storage, write_log, keys_changed, sender)`;
`some b` is the verdict delivered on the result channel, `none` a runner
error. -/
abbrev VpRunFn := Bytes → Bytes → Address → Storage → WriteLog →
  List String → Option Bool

/-- Modelled from the spec: the external collaborators consumed by the shell,
gathered at their interface boundary (§1, §6): the wire decoder (`Tx::decode`,
strict), the sandboxed transaction runner (`TxRunner::run` returns the
mutations it staged into the write log plus a success flag — spec §4.2 step 3,
it "only stage[s] writes into the Write Log, never ... Storage directly"),
the per-account validity-predicate lookup (`Storage::validity_predicate`),
the predicate runner (`VpRunner::run`), the configured gas limits and
per-byte base fee (§4.4), and the success behaviour of the durable
`Storage::commit` and `Storage::load_last_state`. -/
structure Env where
  decode : Bytes → Option Tx
  txRun : Storage → WriteLog → Bytes → Bytes → List LogEntry × Bool
  validityPredicate : Storage → Address → Except String Bytes
  vpRun : VpRunFn
  txGasLimit : Nat
  blockGasLimit : Nat
  feePerByte : Nat
  storageCommitOk : Storage → Bool
  loadLastStateOk : Storage → Bool

/-- Modelled from the spec: §4.4 `add_base_transaction_fee(byte_length)` — a
deterministic fee proportional to the encoded size is added to the
transaction counter; fails with a gas-exhaustion error when the transaction
total would exceed the per-transaction limit (§3); "no partial charge may be
left visible after a failed operation". -/
def addBaseTransactionFee (env : Env) (gm : BlockGasMeter) (len : Nat) :
    Except GasErr Unit × BlockGasMeter :=
  let txGas' := gm.txGas + env.feePerByte * len
  if env.txGasLimit < txGas' then (.error .txGasExceeded, gm)
  else (.ok (), { gm with txGas := txGas' })

/-- Modelled from the spec: §4.4 `finalize_transaction()` — "closes out the
transaction's counter, adds it to the block total, returns the amount
charged"; exceeding the block gas limit is a distinct error that "must still
finalize bookkeeping deterministically" (§4.2 step 7). -/
def finalizeTransaction (env : Env) (gm : BlockGasMeter) :
    Except GasErr Nat × BlockGasMeter :=
  let blockGas' := gm.blockGas + gm.txGas
  let gm' : BlockGasMeter := { blockGas := blockGas', txGas := 0 }
  if env.blockGasLimit < blockGas' then (.error .blockGasExceeded, gm')
  else (.ok gm.txGas, gm')

/-- Modelled from the spec: §4.5 `commit()` — durable persistence of the
block; on success the last committed (root, height) pair is recorded. -/
def Storage.commitDB (env : Env) (st : Storage) : Except String Storage :=
  if env.storageCommitOk st then
    .ok { st with lastCommitted := some (merkleRoot st, st.blockHeight) }
  else .error "persisting the block failed"

/-- Modelled from the spec: §4.5 `load_last_state()` — reads the last
committed Merkle root and height, if any. -/
def Storage.loadLastState (env : Env) (st : Storage) :
    Except String (Option (Bytes × Nat)) :=
  if env.loadLastStateOk st then .ok st.lastCommitted
  else .error "reading the last state failed"

/-- The shell state (`struct Shell`, mod.rs lines 73-79).  The `abci` channel
receiver is represented by the message list fed to `runLoop` below. -/
structure Shell where
  storage : Storage
  gasMeter : BlockGasMeter
  writeLog : WriteLog
deriving DecidableEq, Repr

/-- `MempoolTxType` (mod.rs lines 81-88). -/
inductive MempoolTxType
  | newTransaction
  | recheckTransaction
deriving DecidableEq, Repr

/-- `Shell::new` (mod.rs lines 93-118): a fresh storage seeded with the two
genesis balances for the validator account "va" and the basic account "ba". -/
def Shell.new : Shell :=
  let st := Storage.empty
  let st := st.write "va" "balance/eth" [0x10, 0x27, 0, 0, 0, 0, 0, 0]
  let st := st.write "ba" "balance/eth" [0x64, 0, 0, 0, 0, 0, 0, 0]
  { storage := st, gasMeter := BlockGasMeter.default, writeLog := WriteLog.new }

/-- `Shell::init_chain` (mod.rs lines 186-190). -/
def Shell.initChain (s : Shell) (chainId : String) : Except Error Shell :=
  match s.storage.setChainId chainId with
  | .ok st => .ok { s with storage := st }
  | .error e => .error (.storageError e)

/-- `Shell::mempool_validate` (mod.rs lines 195-202): decodes the envelope and
nothing else; `&self`, so the shell state is returned unchanged. -/
def Shell.mempoolValidate (env : Env) (s : Shell) (txBytes : Bytes)
    (ty : MempoolTxType) : Except Error Unit × Shell :=
  match ty with
  | _ =>
    match env.decode txBytes with
    | some _ => (.ok (), s)
    | none => (.error .txDecodingError, s)

/-- The hardcoded source account of `apply_tx` (mod.rs line 227). -/
def srcAccount : Address := "va"

/-- The hardcoded destination account of `apply_tx` (mod.rs line 228). -/
def destAccount : Address := "ba"

/-- The validity-predicate section of `apply_tx` (mod.rs lines 220-304),
parameterised by the predicate-runner function so that schedule-independence
can be stated: fetch the two hardcoded accounts' predicates, run each over the
read-only storage and write log, then commit or drop the staged writes by the
conjunction of the verdicts, and finalize the gas meter. -/
def Shell.applyTxVps (vpRun : VpRunFn) (env : Env) (s : Shell) (txData : Bytes)
    (keysChanged : List String) : Except Error Nat × Shell :=
  match env.validityPredicate s.storage srcAccount with
  | .error e => (.error (.storageError e), s)
  | .ok srcVp =>
    match env.validityPredicate s.storage destAccount with
    | .error e => (.error (.storageError e), s)
    | .ok destVp =>
      match vpRun srcVp txData srcAccount s.storage s.writeLog keysChanged with
      | none => (.error (.vpRunnerError srcAccount), s)
      | some srcAccept =>
        match vpRun destVp txData destAccount s.storage s.writeLog
            keysChanged with
        | none => (.error (.vpRunnerError destAccount), s)
        | some destAccept =>
          let wl := if srcAccept && destAccept then s.writeLog.commitTx
                    else s.writeLog.dropTx
          let fin := finalizeTransaction env s.gasMeter
          (fin.1.mapError Error.gasError,
           { s with writeLog := wl, gasMeter := fin.2 })

/-- The post-decode tail of `apply_tx` (mod.rs lines 212-304), parameterised
by the predicate-runner collaborator: default the missing data payload to
empty bytes, run the transaction code (staging its writes into the write
log), compute the changed keys, then run the predicate section. -/
def Shell.applyTxInnerWith (h : VpRunFn) (env : Env) (s : Shell) (tx : Tx) :
    Except Error Nat × Shell :=
  let txData := tx.data.getD []
  match env.txRun s.storage s.writeLog tx.code txData with
  | (staged, false) =>
    (.error .txRunnerError, { s with writeLog := s.writeLog.stagePending staged })
  | (staged, true) =>
    let s := { s with writeLog := s.writeLog.stagePending staged }
    let keysChanged := (s.writeLog.getChangedKey).map
      (fun k => k.addr ++ "/" ++ k.key)
    Shell.applyTxVps h env s txData keysChanged

/-- The post-decode tail of `apply_tx` with the environment's own predicate
runner plugged in. -/
def Shell.applyTxInner (env : Env) (s : Shell) (tx : Tx) :
    Except Error Nat × Shell :=
  Shell.applyTxInnerWith env.vpRun env s tx

/-- `Shell::apply_tx` (mod.rs lines 205-304), parameterised by the
predicate-runner collaborator: charge the base fee, decode, then run the
transaction and the predicate section.  `&mut self`, so every path also
returns the (possibly mutated) shell state. -/
def Shell.applyTxWith (h : VpRunFn) (env : Env) (s : Shell) (txBytes : Bytes) :
    Except Error Nat × Shell :=
  match addBaseTransactionFee env s.gasMeter txBytes.length with
  | (.error e, gm) => (.error (.gasError e), { s with gasMeter := gm })
  | (.ok _, gm) =>
    let s := { s with gasMeter := gm }
    match env.decode txBytes with
    | none => (.error .txDecodingError, s)
    | some tx => Shell.applyTxInnerWith h env s tx

/-- `Shell::apply_tx` with the environment's own predicate runner plugged
in. -/
def Shell.applyTx (env : Env) (s : Shell) (txBytes : Bytes) :
    Except Error Nat × Shell :=
  Shell.applyTxWith env.vpRun env s txBytes

/-- A hypothetical alternative schedule of the predicate section of
`apply_tx`: the two predicates are fetched in the source's order but
evaluated in the opposite order.  Used to state that the outcome does not
depend on predicate evaluation order. -/
def Shell.applyTxVpsSwapped (vpRun : VpRunFn) (env : Env) (s : Shell)
    (txData : Bytes) (keysChanged : List String) : Except Error Nat × Shell :=
  match env.validityPredicate s.storage srcAccount with
  | .error e => (.error (.storageError e), s)
  | .ok srcVp =>
    match env.validityPredicate s.storage destAccount with
    | .error e => (.error (.storageError e), s)
    | .ok destVp =>
      match vpRun destVp txData destAccount s.storage s.writeLog
          keysChanged with
      | none => (.error (.vpRunnerError destAccount), s)
      | some destAccept =>
        match vpRun srcVp txData srcAccount s.storage s.writeLog
            keysChanged with
        | none => (.error (.vpRunnerError srcAccount), s)
        | some srcAccept =>
          let wl := if srcAccept && destAccept then s.writeLog.commitTx
                    else s.writeLog.dropTx
          let fin := finalizeTransaction env s.gasMeter
          (fin.1.mapError Error.gasError,
           { s with writeLog := wl, gasMeter := fin.2 })

/-- `apply_tx` under the alternative predicate schedule. -/
def Shell.applyTxSwappedWith (h : VpRunFn) (env : Env) (s : Shell)
    (txBytes : Bytes) : Except Error Nat × Shell :=
  match addBaseTransactionFee env s.gasMeter txBytes.length with
  | (.error e, gm) => (.error (.gasError e), { s with gasMeter := gm })
  | (.ok _, gm) =>
    let s := { s with gasMeter := gm }
    match env.decode txBytes with
    | none => (.error .txDecodingError, s)
    | some tx =>
      let txData := tx.data.getD []
      match env.txRun s.storage s.writeLog tx.code txData with
      | (staged, false) =>
        (.error .txRunnerError,
         { s with writeLog := s.writeLog.stagePending staged })
      | (staged, true) =>
        let s := { s with writeLog := s.writeLog.stagePending staged }
        let keysChanged := (s.writeLog.getChangedKey).map
          (fun k => k.addr ++ "/" ++ k.key)
        Shell.applyTxVpsSwapped h env s txData keysChanged

/-- Mirror of the stage of `apply_tx` that precedes the predicate section:
`some (s2, txData, keysChanged)` when the base-fee charge, the decode and the
transaction runner all succeed (with `s2` the shell holding the charged meter
and the staged write log), `none` when any of them fails. -/
def Shell.applyTxStage (env : Env) (s : Shell) (tb : Bytes) :
    Option (Shell × Bytes × List String) :=
  match addBaseTransactionFee env s.gasMeter tb.length with
  | (.error _, _) => none
  | (.ok _, gm) =>
    let s := { s with gasMeter := gm }
    match env.decode tb with
    | none => none
    | some tx =>
      let txData := tx.data.getD []
      match env.txRun s.storage s.writeLog tx.code txData with
      | (_, false) => none
      | (staged, true) =>
        let s := { s with writeLog := s.writeLog.stagePending staged }
        let keysChanged := (s.writeLog.getChangedKey).map
          (fun k => k.addr ++ "/" ++ k.key)
        some (s, txData, keysChanged)

/-- Mirror of the predicate section: `some (srcAccept, destAccept)` when both
predicate fetches and both runs succeed, `none` when any of them fails. -/
def vpsTrace (h : VpRunFn) (env : Env) (s : Shell) (txData : Bytes)
    (keysChanged : List String) : Option (Bool × Bool) :=
  match env.validityPredicate s.storage srcAccount with
  | .error _ => none
  | .ok srcVp =>
    match env.validityPredicate s.storage destAccount with
    | .error _ => none
    | .ok destVp =>
      match h srcVp txData srcAccount s.storage s.writeLog keysChanged with
      | none => none
      | some srcAccept =>
        match h destVp txData destAccount s.storage s.writeLog keysChanged with
        | none => none
        | some destAccept => some (srcAccept, destAccept)

/-- Full mirror of a run of `apply_tx` that reaches the finalize step:
`some (s2, srcAccept, destAccept)` when every step up to and including both
predicate runs succeeds. -/
def Shell.applyTxTraceWith (h : VpRunFn) (env : Env) (s : Shell) (tb : Bytes) :
    Option (Shell × Bool × Bool) :=
  match Shell.applyTxStage env s tb with
  | none => none
  | some (s2, txData, keysChanged) =>
    match vpsTrace h env s2 txData keysChanged with
    | none => none
    | some (a, b) => some (s2, a, b)

/-- The trace of `apply_tx` with the environment's own predicate runner. -/
def Shell.applyTxTrace (env : Env) (s : Shell) (tb : Bytes) :
    Option (Shell × Bool × Bool) :=
  Shell.applyTxTraceWith env.vpRun env s tb

/-- `Shell::begin_block` (mod.rs lines 307-310). -/
def Shell.beginBlock (s : Shell) (hash : Bytes) (height : Nat) : Shell :=
  { s with gasMeter := s.gasMeter.reset,
           storage := s.storage.beginBlock hash height }

/-- `Shell::end_block` (mod.rs line 313): a no-op hook. -/
def Shell.endBlock (s : Shell) (_height : Nat) : Shell := s

/-- `Shell::commit` (mod.rs lines 317-333): flush the block-scoped write log
into storage, attempt the durable commit — a failure is logged and otherwise
ignored — and return the Merkle root of the resulting storage. -/
def Shell.commit (env : Env) (s : Shell) : Bytes × Shell :=
  let flushed := s.writeLog.commitBlock s.storage
  let st :=
    match Storage.commitDB env flushed.1 with
    | .ok st' => st'
    | .error _ => flushed.1
  (merkleRoot st, { s with storage := st, writeLog := flushed.2 })

/-- `Shell::last_state` (mod.rs lines 337-359): storage errors are mapped to
`none`. -/
def Shell.lastState (env : Env) (s : Shell) : Option (Bytes × Nat) :=
  match s.storage.loadLastState env with
  | .ok r => r
  | .error _ => none

/-- Whether a result is an error (`Result::is_err`). -/
def exceptIsErr {ε α : Type} : Except ε α → Bool
  | .error _ => true
  | .ok _ => false

/-- Whether a result is a success (`Result::is_ok`). -/
def exceptIsOk {ε α : Type} : Except ε α → Bool
  | .error _ => false
  | .ok _ => true

/-- Folding `apply_tx` over a sequence of transactions, keeping the shell
state (the per-transaction verdicts are delivered on the reply channel and do
not feed back into the loop). -/
def applyTxSeq (env : Env) (s : Shell) (tbs : List Bytes) : Shell :=
  tbs.foldl (fun st tb => (Shell.applyTx env st tb).2) s

/-- `GasErr` rendering used by `Error.display`. -/
def GasErr.display : GasErr → String
  | .txGasExceeded => "transaction gas limit exceeded"
  | .blockGasExceeded => "block gas limit exceeded"

/-- The `Display` strings of the error enum (the `#[error(...)]` templates in
mod.rs lines 23-43), used where the run loop maps an error to a reply string
via `format!`. -/
def Error.display : Error → String
  | .temporary error => "TEMPORARY error: " ++ error
  | .removeDB => "Error removing the DB data"
  | .storageError e => "Storage error: " ++ e
  | .abciChannelRecvError => "Shell ABCI channel receiver error"
  | .abciChannelSendError s => "Shell ABCI channel sender error: " ++ s
  | .txDecodingError => "Error decoding a transaction from bytes"
  | .txRunnerError => "Transaction runner error"
  | .vpRunnerError addr => "Validity predicate for " ++ addr ++ " runner error"
  | .gasError e => "Gas error: " ++ e.display

/-- Modelled from the spec: §6 the typed lifecycle messages delivered by the
Protocol Bridge (`AbciMsg`); each carries a single-use reply channel,
represented here by the reply accumulated in `runLoop`. -/
inductive AbciMsg
  | getInfo
  | initChain (chainId : String)
  | mempoolValidate (tx : Bytes) (ty : MempoolTxType)
  | beginBlock (hash : Bytes) (height : Nat)
  | applyTx (tx : Bytes)
  | endBlock (height : Nat)
  | commitBlock
deriving DecidableEq, Repr

deriving instance DecidableEq for Except

/-- The reply values the shell sends back, one per handled message (§6). -/
inductive Reply
  | info (r : Option (Bytes × Nat))
  | ack
  | mempool (r : Except String Unit)
  | appliedTx (r : Except String Nat)
  | committed (root : Bytes)
deriving DecidableEq, Repr

/-- One iteration of the `Shell::run` match (mod.rs lines 124-180): how a
single message is handled.  `.ok (reply, s')` means the reply is sent and the
loop continues; `.error e` means the handler's error escapes the loop body via
`?` before any reply is sent (which the source does only for `InitChain`). -/
def handleMsg (env : Env) (s : Shell) : AbciMsg → Except Error (Reply × Shell)
  | .getInfo => .ok (.info (s.lastState env), s)
  | .initChain chainId =>
    match s.initChain chainId with
    | .ok s' => .ok (.ack, s')
    | .error e => .error e
  | .mempoolValidate tx ty =>
    let r := s.mempoolValidate env tx ty
    .ok (.mempool (r.1.mapError Error.display), r.2)
  | .beginBlock hash height => .ok (.ack, s.beginBlock hash height)
  | .applyTx tx =>
    let r := s.applyTx env tx
    .ok (.appliedTx (r.1.mapError Error.display), r.2)
  | .endBlock height => .ok (.ack, s.endBlock height)
  | .commitBlock =>
    let r := s.commit env
    .ok (.committed r.1, r.2)

/-- `Shell::run` (mod.rs lines 121-182) over a finite incoming message list:
returns the replies sent, in order, and the loop's exit value.  Channel sends
are assumed delivered; exhausting the list models the sender side closing the
channel, which surfaces as the fatal receive error of mod.rs line 123. -/
def runLoop (env : Env) : Shell → List AbciMsg → List Reply × Except Error Unit
  | _, [] => ([], .error .abciChannelRecvError)
  | s, msg :: rest =>
    match handleMsg env s msg with
    | .error e => ([], .error e)
    | .ok (r, s') =>
      let tail := runLoop env s' rest
      (r :: tail.1, tail.2)

/-- A small concrete collaborator environment used to evaluate the shell on
specific inputs: four well-formed wire encodings (`[0]` a transaction with no
data payload, `[1]` one with an empty payload, `[2]` one whose code stages a
write under the account "xx", `[3]` one whose code makes the transaction
runner fail), every other byte string malformed; both hardcoded accounts have
a validity predicate and every predicate run accepts. -/
def tEnv : Env where
  decode := fun b =>
    match b with
    | [0] => some { code := [0], data := none }
    | [1] => some { code := [1], data := some [] }
    | [2] => some { code := [2], data := some [7] }
    | [3] => some { code := [3], data := some [] }
    | _ => none
  txRun := fun _ _ code _ =>
    match code with
    | [2] => ([(⟨"xx", "k"⟩, some [7])], true)
    | [3] => ([], false)
    | _ => ([(⟨"va", "n"⟩, some [1])], true)
  validityPredicate := fun _ addr =>
    if addr == "va" || addr == "ba" then .ok [9]
    else .error ("no vp for " ++ addr)
  vpRun := fun _ _ _ _ _ _ => some true
  txGasLimit := 100
  blockGasLimit := 1000
  feePerByte := 1
  storageCommitOk := fun _ => true
  loadLastStateOk := fun _ => true

/-- `tEnv` with a predicate runner that accepts for the source account and
rejects for the destination account. -/
def rejEnv : Env :=
  { tEnv with vpRun := fun _ _ addr _ _ _ => some (addr == srcAccount) }

/-- `tEnv` with validity predicates stored only for the account "xx" that the
transaction `[2]` actually touches. -/
def noVpEnv : Env :=
  { tEnv with validityPredicate := fun _ addr =>
      if addr == "xx" then .ok [9] else .error ("no vp for " ++ addr) }

/-- `tEnv` with a zero block gas limit, so that gas finalization always fails
once any fee was charged. -/
def lowBlockGasEnv : Env := { tEnv with blockGasLimit := 0 }

/-- A predicate runner that accepts exactly for the source account. -/
def vpA : VpRunFn := fun _ _ addr _ _ _ => some (addr == srcAccount)

/-- A predicate runner that accepts exactly for the destination account. -/
def vpB : VpRunFn := fun _ _ addr _ _ _ => some (addr == destAccount)

/-- `tEnv` with a zero per-transaction gas limit, so that the base-fee charge
always fails. -/
def noGasEnv : Env := { tEnv with txGasLimit := 0 }

theorem stagePending_blockLog (wl : WriteLog) (es : List LogEntry) :
    (wl.stagePending es).blockLog = wl.blockLog := rfl

theorem dropTx_blockLog (wl : WriteLog) : wl.dropTx.blockLog = wl.blockLog := rfl

theorem finalize_error_eq (env : Env) (gm : BlockGasMeter) (e : GasErr)
    (hf : (finalizeTransaction env gm).1 = .error e) : e = .blockGasExceeded := by
  unfold finalizeTransaction at hf
  by_cases hlt : env.blockGasLimit < gm.blockGas + gm.txGas
  · simp only [if_pos hlt] at hf
    exact (Except.error.injEq .. ▸ hf).symm
  · simp only [if_neg hlt] at hf
    exact Except.noConfusion hf

theorem applyTxVps_of_trace (h : VpRunFn) (env : Env) (s : Shell)
    (txData : Bytes) (keysChanged : List String) (a b : Bool)
    (ht : vpsTrace h env s txData keysChanged = some (a, b)) :
    Shell.applyTxVps h env s txData keysChanged =
      ((finalizeTransaction env s.gasMeter).1.mapError Error.gasError,
       { s with
         writeLog := if a && b then s.writeLog.commitTx else s.writeLog.dropTx,
         gasMeter := (finalizeTransaction env s.gasMeter).2 }) := by
  unfold vpsTrace at ht
  unfold Shell.applyTxVps
  rcases hsv : env.validityPredicate s.storage srcAccount with e | srcVp
  · simp only [hsv] at ht
    exact Option.noConfusion ht
  · simp only [hsv] at ht ⊢
    rcases hdv : env.validityPredicate s.storage destAccount with e | destVp
    · simp only [hdv] at ht
      exact Option.noConfusion ht
    · simp only [hdv] at ht ⊢
      rcases hra : h srcVp txData srcAccount s.storage s.writeLog keysChanged
        with _ | a0
      · simp only [hra] at ht
        exact Option.noConfusion ht
      · simp only [hra] at ht ⊢
        rcases hrb : h destVp txData destAccount s.storage s.writeLog
          keysChanged with _ | b0
        · simp only [hrb] at ht
          exact Option.noConfusion ht
        · simp only [hrb] at ht ⊢
          obtain ⟨rfl, rfl⟩ : a0 = a ∧ b0 = b := by simpa using ht
          rfl

theorem applyTxVpsSwapped_of_trace (h : VpRunFn) (env : Env) (s : Shell)
    (txData : Bytes) (keysChanged : List String) (a b : Bool)
    (ht : vpsTrace h env s txData keysChanged = some (a, b)) :
    Shell.applyTxVpsSwapped h env s txData keysChanged =
      ((finalizeTransaction env s.gasMeter).1.mapError Error.gasError,
       { s with
         writeLog := if a && b then s.writeLog.commitTx else s.writeLog.dropTx,
         gasMeter := (finalizeTransaction env s.gasMeter).2 }) := by
  unfold vpsTrace at ht
  unfold Shell.applyTxVpsSwapped
  rcases hsv : env.validityPredicate s.storage srcAccount with e | srcVp
  · simp only [hsv] at ht
    exact Option.noConfusion ht
  · simp only [hsv] at ht ⊢
    rcases hdv : env.validityPredicate s.storage destAccount with e | destVp
    · simp only [hdv] at ht
      exact Option.noConfusion ht
    · simp only [hdv] at ht ⊢
      rcases hra : h srcVp txData srcAccount s.storage s.writeLog keysChanged
        with _ | a0
      · simp only [hra] at ht
        exact Option.noConfusion ht
      · simp only [hra] at ht ⊢
        rcases hrb : h destVp txData destAccount s.storage s.writeLog
          keysChanged with _ | b0
        · simp only [hrb] at ht
          exact Option.noConfusion ht
        · simp only [hrb] at ht ⊢
          obtain ⟨rfl, rfl⟩ : a0 = a ∧ b0 = b := by simpa using ht
          rfl

theorem applyTxVps_of_trace_none (h : VpRunFn) (env : Env) (s : Shell)
    (txData : Bytes) (keysChanged : List String)
    (ht : vpsTrace h env s txData keysChanged = none) :
    exceptIsErr (Shell.applyTxVps h env s txData keysChanged).1 = true ∧
    (Shell.applyTxVps h env s txData keysChanged).2 = s := by
  unfold vpsTrace at ht
  unfold Shell.applyTxVps
  rcases hsv : env.validityPredicate s.storage srcAccount with e | srcVp
  · simp only [hsv]
    exact ⟨rfl, trivial⟩
  · simp only [hsv] at ht ⊢
    rcases hdv : env.validityPredicate s.storage destAccount with e | destVp
    · simp only [hdv]
      exact ⟨rfl, trivial⟩
    · simp only [hdv] at ht ⊢
      rcases hra : h srcVp txData srcAccount s.storage s.writeLog keysChanged
        with _ | a0
      · simp only [hra]
        exact ⟨rfl, trivial⟩
      · simp only [hra] at ht ⊢
        rcases hrb : h destVp txData destAccount s.storage s.writeLog
          keysChanged with _ | b0
        · simp only [hrb]
          exact ⟨rfl, trivial⟩
        · simp only [hrb] at ht
          exact Option.noConfusion ht

theorem applyTxWith_of_stage (h : VpRunFn) (env : Env) (s : Shell) (tb : Bytes)
    (s2 : Shell) (txData : Bytes) (keysChanged : List String)
    (hs : Shell.applyTxStage env s tb = some (s2, txData, keysChanged)) :
    Shell.applyTxWith h env s tb =
      Shell.applyTxVps h env s2 txData keysChanged := by
  unfold Shell.applyTxStage at hs
  unfold Shell.applyTxWith Shell.applyTxInnerWith
  rcases hfee : addBaseTransactionFee env s.gasMeter tb.length with ⟨e | u, gm⟩
  · simp only [hfee] at hs
    exact Option.noConfusion hs
  · simp only [hfee] at hs ⊢
    rcases hdec : env.decode tb with _ | tx
    · simp only [hdec] at hs
      exact Option.noConfusion hs
    · simp only [hdec] at hs ⊢
      rcases hrun : env.txRun { s with gasMeter := gm }.storage
          { s with gasMeter := gm }.writeLog tx.code (tx.data.getD [])
        with ⟨staged, _ | _⟩
      · simp only [hrun] at hs
        exact Option.noConfusion hs
      · simp only [hrun] at hs ⊢
        obtain ⟨rfl, rfl, rfl⟩ :
            ({ s with
                gasMeter := gm,
                writeLog := s.writeLog.stagePending staged } : Shell) = s2 ∧
            tx.data.getD [] = txData ∧
            ((s.writeLog.stagePending staged).getChangedKey).map
              (fun k => k.addr ++ "/" ++ k.key) = keysChanged := by
          simpa using hs
        rfl

theorem applyTxSwappedWith_of_stage (h : VpRunFn) (env : Env) (s : Shell)
    (tb : Bytes) (s2 : Shell) (txData : Bytes) (keysChanged : List String)
    (hs : Shell.applyTxStage env s tb = some (s2, txData, keysChanged)) :
    Shell.applyTxSwappedWith h env s tb =
      Shell.applyTxVpsSwapped h env s2 txData keysChanged := by
  unfold Shell.applyTxStage at hs
  unfold Shell.applyTxSwappedWith
  rcases hfee : addBaseTransactionFee env s.gasMeter tb.length with ⟨e | u, gm⟩
  · simp only [hfee] at hs
    exact Option.noConfusion hs
  · simp only [hfee] at hs ⊢
    rcases hdec : env.decode tb with _ | tx
    · simp only [hdec] at hs
      exact Option.noConfusion hs
    · simp only [hdec] at hs ⊢
      rcases hrun : env.txRun { s with gasMeter := gm }.storage
          { s with gasMeter := gm }.writeLog tx.code (tx.data.getD [])
        with ⟨staged, _ | _⟩
      · simp only [hrun] at hs
        exact Option.noConfusion hs
      · simp only [hrun] at hs ⊢
        obtain ⟨rfl, rfl, rfl⟩ :
            ({ s with
                gasMeter := gm,
                writeLog := s.writeLog.stagePending staged } : Shell) = s2 ∧
            tx.data.getD [] = txData ∧
            ((s.writeLog.stagePending staged).getChangedKey).map
              (fun k => k.addr ++ "/" ++ k.key) = keysChanged := by
          simpa using hs
        rfl

theorem applyTxWith_of_stage_none (h : VpRunFn) (env : Env) (s : Shell)
    (tb : Bytes) (hs : Shell.applyTxStage env s tb = none) :
    exceptIsErr (Shell.applyTxWith h env s tb).1 = true ∧
    (Shell.applyTxWith h env s tb).2.storage = s.storage ∧
    (Shell.applyTxWith h env s tb).2.writeLog.blockLog =
      s.writeLog.blockLog := by
  unfold Shell.applyTxStage at hs
  unfold Shell.applyTxWith Shell.applyTxInnerWith
  rcases hfee : addBaseTransactionFee env s.gasMeter tb.length with ⟨e | u, gm⟩
  · simp only [hfee]
    refine ⟨?_, ?_, ?_⟩ <;> trivial
  · simp only [hfee] at hs ⊢
    rcases hdec : env.decode tb with _ | tx
    · simp only [hdec]
      refine ⟨?_, ?_, ?_⟩ <;> trivial
    · simp only [hdec] at hs ⊢
      rcases hrun : env.txRun { s with gasMeter := gm }.storage
          { s with gasMeter := gm }.writeLog tx.code (tx.data.getD [])
        with ⟨staged, _ | _⟩
      · simp only [hrun]
        refine ⟨?_, ?_, ?_⟩ <;> trivial
      · simp only [hrun] at hs
        exact Option.noConfusion hs

theorem applyTxStage_props (env : Env) (s : Shell) (tb : Bytes) (s2 : Shell)
    (txData : Bytes) (keysChanged : List String)
    (hs : Shell.applyTxStage env s tb = some (s2, txData, keysChanged)) :
    s2.storage = s.storage ∧
    s2.writeLog.blockLog = s.writeLog.blockLog := by
  unfold Shell.applyTxStage at hs
  rcases hfee : addBaseTransactionFee env s.gasMeter tb.length with ⟨e | u, gm⟩
  · simp only [hfee] at hs
    exact Option.noConfusion hs
  · simp only [hfee] at hs
    rcases hdec : env.decode tb with _ | tx
    · simp only [hdec] at hs
      exact Option.noConfusion hs
    · simp only [hdec] at hs
      rcases hrun : env.txRun { s with gasMeter := gm }.storage
          { s with gasMeter := gm }.writeLog tx.code (tx.data.getD [])
        with ⟨staged, _ | _⟩
      · simp only [hrun] at hs
        exact Option.noConfusion hs
      · simp only [hrun] at hs
        obtain ⟨rfl, _, _⟩ :
            ({ s with
                gasMeter := gm,
                writeLog := s.writeLog.stagePending staged } : Shell) = s2 ∧
            tx.data.getD [] = txData ∧
            ((s.writeLog.stagePending staged).getChangedKey).map
              (fun k => k.addr ++ "/" ++ k.key) = keysChanged := by
          simpa using hs
        exact ⟨rfl, rfl⟩

theorem applyTxTraceWith_elim (h : VpRunFn) (env : Env) (s : Shell)
    (tb : Bytes) (s2 : Shell) (a b : Bool)
    (ht : Shell.applyTxTraceWith h env s tb = some (s2, a, b)) :
    ∃ txData keysChanged,
      Shell.applyTxStage env s tb = some (s2, txData, keysChanged) ∧
      vpsTrace h env s2 txData keysChanged = some (a, b) := by
  unfold Shell.applyTxTraceWith at ht
  rcases hs : Shell.applyTxStage env s tb with _ | ⟨s0, txData, keysChanged⟩
  · simp only [hs] at ht
    exact Option.noConfusion ht
  · simp only [hs] at ht
    rcases hv : vpsTrace h env s0 txData keysChanged with _ | ⟨a0, b0⟩
    · simp only [hv] at ht
      exact Option.noConfusion ht
    · simp only [hv] at ht
      obtain ⟨rfl, rfl, rfl⟩ : s0 = s2 ∧ a0 = a ∧ b0 = b := by simpa using ht
      exact ⟨txData, keysChanged, rfl, hv⟩

theorem applyTxTraceWith_intro (h : VpRunFn) (env : Env) (s : Shell)
    (tb : Bytes) (s2 : Shell) (txData : Bytes) (keysChanged : List String)
    (a b : Bool)
    (hs : Shell.applyTxStage env s tb = some (s2, txData, keysChanged))
    (hv : vpsTrace h env s2 txData keysChanged = some (a, b)) :
    Shell.applyTxTraceWith h env s tb = some (s2, a, b) := by
  unfold Shell.applyTxTraceWith
  simp only [hs, hv]

/-- C8: For every prior state of the Gas Meter, `begin_block(hash, height)`
resets the Gas Meter's block counter to zero (regardless of the previous
block's consumption) and advances Storage's working block hash and height to
the given values. -/
theorem beginBlock_resets_gas_and_advances_storage :
    ∀ (s : Shell) (hash : Bytes) (height : Nat),
      (Shell.beginBlock s hash height).gasMeter.blockGas = 0 ∧
      (Shell.beginBlock s hash height).storage.blockHash = hash ∧
      (Shell.beginBlock s hash height).storage.blockHeight = height := by
  intro s hash height
  exact ⟨rfl, rfl, rfl⟩

/-- C9: A transaction envelope that decodes successfully but carries no data
payload is processed exactly as if its input data were the empty byte
sequence: the post-decode tail of `apply_tx` gives the same result (and so
runs the transaction code and the predicates with empty data) for a missing
payload and for an explicitly empty one. -/
theorem applyTxInner_missing_data_as_empty :
    ∀ (env : Env) (s : Shell) (code : Bytes),
      Shell.applyTxInner env s { code := code, data := none } =
        Shell.applyTxInner env s { code := code, data := some [] } := by
  intro env s code
  rfl

/-- C7: `mempool_validate` returns accept exactly when the transaction
envelope decodes; it leaves the shell state unchanged, its result does not
depend on the mempool transaction kind, and it never consults the
transaction runner or the predicate runner. -/
theorem mempoolValidate_decode_only :
    (∀ (env : Env) (s : Shell) (tb : Bytes) (ty ty' : MempoolTxType),
        Shell.mempoolValidate env s tb ty = Shell.mempoolValidate env s tb ty') ∧
    (∀ (env : Env) (s : Shell) (tb : Bytes) (ty : MempoolTxType),
        (Shell.mempoolValidate env s tb ty).2 = s) ∧
    (∀ (env : Env) (s : Shell) (tb : Bytes) (ty : MempoolTxType),
        exceptIsOk (Shell.mempoolValidate env s tb ty).1 =
          (env.decode tb).isSome) ∧
    (∀ (env : Env) (s : Shell) (tb : Bytes) (ty : MempoolTxType)
        (f : Storage → WriteLog → Bytes → Bytes → List LogEntry × Bool)
        (g : VpRunFn),
        Shell.mempoolValidate { env with txRun := f, vpRun := g } s tb ty =
          Shell.mempoolValidate env s tb ty) := by
  refine ⟨?_, ?_, ?_, ?_⟩
  · intro env s tb ty ty'
    cases ty <;> cases ty' <;> rfl
  · intro env s tb ty
    cases ty <;> unfold Shell.mempoolValidate <;>
      rcases env.decode tb with _ | tx <;> rfl
  · intro env s tb ty
    cases ty <;> unfold Shell.mempoolValidate <;>
      rcases hdec : env.decode tb with _ | tx <;> simp [hdec, exceptIsOk]
  · intro env s tb ty f g
    cases ty <;> rfl

/-- C10: the `CommitBlock` handler always returns a Merkle root and never an
error reply: whether or not the durable storage commit succeeds, the root
returned is that of the storage produced by flushing the block-scoped write
log, so the caller cannot observe a storage-commit failure; and the event
loop always answers `CommitBlock` with a `committed` reply. -/
theorem commit_always_returns_root :
    (∀ (env : Env) (f : Storage → Bool) (s : Shell),
        (Shell.commit { env with storageCommitOk := f } s).1 =
          merkleRoot (s.writeLog.commitBlock s.storage).1) ∧
    (∀ (env : Env) (f g : Storage → Bool) (s : Shell),
        (Shell.commit { env with storageCommitOk := f } s).1 =
          (Shell.commit { env with storageCommitOk := g } s).1) ∧
    (∀ (env : Env) (s : Shell),
        handleMsg env s AbciMsg.commitBlock =
          .ok (.committed (Shell.commit env s).1, (Shell.commit env s).2)) := by
  have key : ∀ (env : Env) (f : Storage → Bool) (s : Shell),
      (Shell.commit { env with storageCommitOk := f } s).1 =
        merkleRoot (s.writeLog.commitBlock s.storage).1 := by
    intro env f s
    unfold Shell.commit Storage.commitDB
    dsimp only
    split
    · rename_i st hst
      split at hst
      · obtain rfl := Except.ok.inj hst
        rfl
      · exact Except.noConfusion hst
    · rfl
  exact ⟨key, fun env f g s => (key env f s).trans (key env g s).symm,
    fun env s => rfl⟩

/-- C4: evaluation of the code at a transaction whose staged writes touch
only the account "xx": `apply_tx` still fetches the validity predicates of
the hardcoded accounts "va" and "ba" — here failing because "va" has no
predicate — even though the changed-key set derived from the write log names
only "xx/k".  The affected-account set is hardcoded, not derived from the
changed keys. -/
theorem applyTx_uses_hardcoded_accounts :
    (Shell.applyTx noVpEnv Shell.new [2]).1 =
      .error (.storageError "no vp for va") ∧
    (Shell.applyTxStage noVpEnv Shell.new [2]).map (fun q => q.2.2) =
      some ["xx/k"] := by
  exact ⟨rfl, rfl⟩

theorem addBase_decode_irrel (env : Env) (d : Bytes → Option Tx)
    (gm : BlockGasMeter) (len : Nat) :
    addBaseTransactionFee { env with decode := d } gm len =
      addBaseTransactionFee env gm len := rfl

theorem addBase_error_meter (env : Env) (gm : BlockGasMeter) (len : Nat)
    (e : GasErr) (gm' : BlockGasMeter)
    (hfee : addBaseTransactionFee env gm len = (.error e, gm')) :
    gm' = gm := by
  unfold addBaseTransactionFee at hfee
  dsimp only at hfee
  split at hfee
  · injection hfee with h1 h2
    exact h2.symm
  · injection hfee with h1 h2
    exact Except.noConfusion h1

/-- C5: `apply_tx` charges the base fee — a deterministic function of the
byte length of the raw transaction — against the Gas Meter before decoding:
a malformed input yields a decode error with the fee charged and nothing
else mutated, and when the base-fee charge itself exceeds the gas limit,
`apply_tx` fails with a gas error whose outcome is independent of the
decoder (so before any decoding), leaving the meter rolled back. -/
theorem applyTx_base_fee_before_decode :
    (∀ (env : Env) (s : Shell) (tb : Bytes) (gm' : BlockGasMeter),
        addBaseTransactionFee env s.gasMeter tb.length = (.ok (), gm') →
        env.decode tb = none →
        Shell.applyTx env s tb =
          (.error .txDecodingError, { s with gasMeter := gm' })) ∧
    (∀ (env : Env) (s : Shell) (tb : Bytes) (e : GasErr)
        (gm' : BlockGasMeter) (d : Bytes → Option Tx),
        addBaseTransactionFee env s.gasMeter tb.length = (.error e, gm') →
        gm' = s.gasMeter ∧
        Shell.applyTx { env with decode := d } s tb =
          (.error (.gasError e), { s with gasMeter := gm' })) := by
  constructor
  · intro env s tb gm' hfee hdec
    unfold Shell.applyTx Shell.applyTxWith
    simp only [hfee, hdec]
  · intro env s tb e gm' d hfee
    refine ⟨addBase_error_meter env s.gasMeter tb.length e gm' hfee, ?_⟩
    unfold Shell.applyTx Shell.applyTxWith
    simp only [addBase_decode_irrel, hfee]

/-- C5 witness: at the malformed input `[9]` the fee of one unit is charged
and `apply_tx` reports the decode error; with a zero transaction gas limit
the charge fails and `apply_tx` reports the gas error with the meter
unchanged, independently of the decoder. -/
theorem applyTx_base_fee_before_decode_witness :
    Shell.applyTx tEnv Shell.new [9] =
      (.error .txDecodingError,
       { Shell.new with gasMeter := { blockGas := 0, txGas := 1 } }) ∧
    Shell.applyTx { noGasEnv with decode := tEnv.decode } Shell.new [2] =
      (.error (.gasError .txGasExceeded),
       { Shell.new with gasMeter := Shell.new.gasMeter }) := by
  constructor
  · exact applyTx_base_fee_before_decode.1 tEnv Shell.new [9] _ rfl rfl
  · exact (applyTx_base_fee_before_decode.2 noGasEnv Shell.new [2]
      GasErr.txGasExceeded Shell.new.gasMeter tEnv.decode rfl).2

/-- C1 counterexample: a concrete transaction accepted by every predicate
whose gas finalization fails (block gas limit zero): `apply_tx` returns an
error, yet the block-scoped write log differs from what it was before the
call — the claimed atomicity for a failure at the gas-finalization step does
not hold. -/
theorem applyTx_gas_finalize_failure_mutates_blockLog :
    exceptIsErr (Shell.applyTx lowBlockGasEnv Shell.new [2]).1 = true ∧
    ¬ (Shell.applyTx lowBlockGasEnv Shell.new [2]).2.writeLog.blockLog =
        Shell.new.writeLog.blockLog := by
  exact ⟨rfl, by decide⟩

/-- C1 (amended): a transaction failing at the base-fee charge, decode,
transaction-runner, predicate-fetch or predicate-run step leaves Storage and
the block-scoped write log unchanged (and Storage is unchanged on every
failure); but when the failure is the gas finalization, the commit/drop
decision has already been applied: the block log can change exactly when
every invoked predicate accepted, in which case the staged writes remain
promoted even though a block-gas error is returned. -/
theorem applyTx_atomic_until_finalize :
    ∀ (env : Env) (s : Shell) (tb : Bytes),
      exceptIsErr (Shell.applyTx env s tb).1 = true →
      (Shell.applyTx env s tb).2.storage = s.storage ∧
      ((Shell.applyTx env s tb).2.writeLog.blockLog = s.writeLog.blockLog ∨
       ((Shell.applyTx env s tb).1 = .error (.gasError .blockGasExceeded) ∧
        ∃ s2, Shell.applyTxTrace env s tb = some (s2, true, true) ∧
          (Shell.applyTx env s tb).2.writeLog = s2.writeLog.commitTx)) := by
  intro env s tb hErr
  rcases hstage : Shell.applyTxStage env s tb with _ | ⟨s2, txData, keys⟩
  · obtain ⟨_, hst, hbl⟩ :=
      applyTxWith_of_stage_none env.vpRun env s tb hstage
    exact ⟨hst, Or.inl hbl⟩
  · have heq : Shell.applyTx env s tb =
        Shell.applyTxVps env.vpRun env s2 txData keys :=
      applyTxWith_of_stage env.vpRun env s tb s2 txData keys hstage
    obtain ⟨hst2, hbl2⟩ := applyTxStage_props env s tb s2 txData keys hstage
    rcases hv : vpsTrace env.vpRun env s2 txData keys with _ | ⟨a, b⟩
    · obtain ⟨_, hsame⟩ :=
        applyTxVps_of_trace_none env.vpRun env s2 txData keys hv
      rw [heq, hsame]
      exact ⟨hst2, Or.inl hbl2⟩
    · have hres := applyTxVps_of_trace env.vpRun env s2 txData keys a b hv
      rw [heq, hres]
      rw [heq, hres] at hErr
      rcases hfin : (finalizeTransaction env s2.gasMeter).1 with e | g
      · have he : e = .blockGasExceeded :=
          finalize_error_eq env s2.gasMeter e hfin
        subst he
        rcases hab : a && b
        · refine ⟨hst2, Or.inl ?_⟩
          simp only [hab, Bool.false_eq_true, if_false]
          exact (dropTx_blockLog s2.writeLog).trans hbl2
        · refine ⟨hst2, Or.inr ⟨?_, s2, ?_, ?_⟩⟩
          · simp only [hfin]
            rfl
          · obtain ⟨rfl, rfl⟩ : a = true ∧ b = true := by
              constructor
              · exact (Bool.and_eq_true ..).mp hab |>.1
              · exact (Bool.and_eq_true ..).mp hab |>.2
            exact applyTxTraceWith_intro env.vpRun env s tb s2 txData keys
              true true hstage hv
          · simp [hab]
      · rw [hfin] at hErr
        exact absurd hErr (by simp [Except.mapError, exceptIsErr])

/-- C1 witness: the amended atomicity theorem applied at the malformed
transaction `[9]`: the failing call leaves Storage and the block log of the
fresh shell unchanged. -/
theorem applyTx_atomic_until_finalize_witness :
    (Shell.applyTx tEnv Shell.new [9]).2.storage = Shell.new.storage ∧
    ((Shell.applyTx tEnv Shell.new [9]).2.writeLog.blockLog =
        Shell.new.writeLog.blockLog ∨
     ((Shell.applyTx tEnv Shell.new [9]).1 =
        .error (.gasError .blockGasExceeded) ∧
      ∃ s2, Shell.applyTxTrace tEnv Shell.new [9] = some (s2, true, true) ∧
        (Shell.applyTx tEnv Shell.new [9]).2.writeLog =
          s2.writeLog.commitTx)) := by
  exact applyTx_atomic_until_finalize tEnv Shell.new [9] rfl

/-- C3 counterexample: a concrete transaction rejected by the destination
account's predicate for which `apply_tx` nevertheless returns a successful
result (the gas consumed), not a declined verdict: the rejection is only
logged. -/
theorem applyTx_rejected_returns_ok :
    (Shell.applyTx rejEnv Shell.new [2]).1 = .ok 1 ∧
    (Shell.applyTxTrace rejEnv Shell.new [2]).map (fun t => t.2) =
      some (true, false) := by
  exact ⟨rfl, rfl⟩

/-- C3 (amended): when every invoked predicate accepts, the staged writes
are promoted into the block-scoped log via `commit_tx`; when at least one
rejects, they are discarded via `drop_tx`, Storage and the block-scoped log
are unchanged by the transaction, and `apply_tx` returns the gas-meter
finalization result (the gas consumed on success — the decline itself is
only logged, not returned to the caller). -/
theorem applyTx_commit_or_drop :
    ∀ (env : Env) (s : Shell) (tb : Bytes) (s2 : Shell) (a b : Bool),
      Shell.applyTxTrace env s tb = some (s2, a, b) →
      ((a && b) = true →
        (Shell.applyTx env s tb).2.writeLog = s2.writeLog.commitTx) ∧
      ((a && b) = false →
        (Shell.applyTx env s tb).2.writeLog = s2.writeLog.dropTx ∧
        (Shell.applyTx env s tb).2.writeLog.blockLog = s.writeLog.blockLog ∧
        (Shell.applyTx env s tb).2.storage = s.storage ∧
        (Shell.applyTx env s tb).1 =
          (finalizeTransaction env s2.gasMeter).1.mapError Error.gasError) := by
  intro env s tb s2 a b ht
  obtain ⟨txData, keys, hstage, hv⟩ :=
    applyTxTraceWith_elim env.vpRun env s tb s2 a b ht
  have heq : Shell.applyTx env s tb =
      Shell.applyTxVps env.vpRun env s2 txData keys :=
    applyTxWith_of_stage env.vpRun env s tb s2 txData keys hstage
  have hres := applyTxVps_of_trace env.vpRun env s2 txData keys a b hv
  obtain ⟨hst2, hbl2⟩ := applyTxStage_props env s tb s2 txData keys hstage
  constructor
  · intro hab
    rw [heq, hres]
    simp only [hab, if_true]
  · intro hab
    rw [heq, hres]
    simp only [hab, Bool.false_eq_true, if_false]
    exact ⟨trivial, (dropTx_blockLog s2.writeLog).trans hbl2, hst2, trivial⟩

/-- C3 witness: the finalize theorem applied to the concrete rejected
transaction: its staged writes are dropped and the fresh shell's block log
and storage are unchanged. -/
theorem applyTx_commit_or_drop_witness :
    (Shell.applyTx rejEnv Shell.new [2]).2.writeLog.blockLog =
      Shell.new.writeLog.blockLog ∧
    (Shell.applyTx rejEnv Shell.new [2]).2.storage = Shell.new.storage := by
  have h := (applyTx_commit_or_drop rejEnv Shell.new [2] _ true false rfl).2 rfl
  exact ⟨h.2.1, h.2.2.1⟩

/-- C2: determinism of `apply_tx`.  (i) For a fixed (Storage state,
transaction bytes) pair, two predicate runners whose runs succeed with the
same conjunction of verdicts produce identical verdicts and identical final
shells — the set of predicates invoked and the logical AND of their verdicts
is the only thing that influences the outcome; (ii) evaluating the
predicates in the opposite order changes nothing; (iii) applying the same
transaction sequence to two shells in identical states yields identical
Merkle roots after `CommitBlock`. -/
theorem applyTx_deterministic :
    (∀ (env : Env) (f g : VpRunFn) (s : Shell) (tb : Bytes) (s2 s2' : Shell)
        (a1 b1 a2 b2 : Bool),
        Shell.applyTxTraceWith f env s tb = some (s2, a1, b1) →
        Shell.applyTxTraceWith g env s tb = some (s2', a2, b2) →
        (a1 && b1) = (a2 && b2) →
        Shell.applyTxWith f env s tb = Shell.applyTxWith g env s tb) ∧
    (∀ (env : Env) (h : VpRunFn) (s : Shell) (tb : Bytes) (s2 : Shell)
        (a b : Bool),
        Shell.applyTxTraceWith h env s tb = some (s2, a, b) →
        Shell.applyTxSwappedWith h env s tb = Shell.applyTxWith h env s tb) ∧
    (∀ (env : Env) (s1 s2 : Shell) (tbs : List Bytes),
        s1 = s2 →
        (Shell.commit env (applyTxSeq env s1 tbs)).1 =
          (Shell.commit env (applyTxSeq env s2 tbs)).1) := by
  refine ⟨?_, ?_, ?_⟩
  · intro env f g s tb s2 s2' a1 b1 a2 b2 ht1 ht2 hconj
    obtain ⟨d1, k1, hs1, hv1⟩ :=
      applyTxTraceWith_elim f env s tb s2 a1 b1 ht1
    obtain ⟨d2, k2, hs2, hv2⟩ :=
      applyTxTraceWith_elim g env s tb s2' a2 b2 ht2
    obtain ⟨rfl, rfl, rfl⟩ : s2' = s2 ∧ d2 = d1 ∧ k2 = k1 := by
      have := hs1.symm.trans hs2
      simpa using this.symm
    rw [applyTxWith_of_stage f env s tb s2' d2 k2 hs1,
        applyTxWith_of_stage g env s tb s2' d2 k2 hs2,
        applyTxVps_of_trace f env s2' d2 k2 a1 b1 hv1,
        applyTxVps_of_trace g env s2' d2 k2 a2 b2 hv2, hconj]
  · intro env h s tb s2 a b ht
    obtain ⟨d, k, hs, hv⟩ := applyTxTraceWith_elim h env s tb s2 a b ht
    rw [applyTxSwappedWith_of_stage h env s tb s2 d k hs,
        applyTxWith_of_stage h env s tb s2 d k hs,
        applyTxVps_of_trace h env s2 d k a b hv,
        applyTxVpsSwapped_of_trace h env s2 d k a b hv]
  · intro env s1 s2 tbs hes
    rw [hes]

/-- C2 witness: the determinism theorem applied to the concrete transaction
`[2]` on a fresh shell — two predicate runners with different individual
verdicts but the same conjunction give the same outcome, and so does the
opposite evaluation order and a replayed sequence. -/
theorem applyTx_deterministic_witness :
    Shell.applyTxWith vpA tEnv Shell.new [2] =
      Shell.applyTxWith vpB tEnv Shell.new [2] ∧
    Shell.applyTxSwappedWith tEnv.vpRun tEnv Shell.new [2] =
      Shell.applyTxWith tEnv.vpRun tEnv Shell.new [2] ∧
    (Shell.commit tEnv (applyTxSeq tEnv Shell.new [[2], [9]])).1 =
      (Shell.commit tEnv (applyTxSeq tEnv Shell.new [[2], [9]])).1 := by
  refine ⟨?_, ?_, ?_⟩
  · exact applyTx_deterministic.1 tEnv vpA vpB Shell.new [2] _ _
      true false false true rfl rfl rfl
  · exact applyTx_deterministic.2.1 tEnv tEnv.vpRun Shell.new [2] _
      true true rfl
  · exact applyTx_deterministic.2.2 tEnv Shell.new Shell.new [[2], [9]] rfl

/-- C6 counterexample: a concrete message sequence on which an `InitChain`
handler error (chain id already set) is not turned into a reply: the event
loop terminates with a storage error — not a channel failure — and the
second and third messages receive no reply (one reply for three
messages). -/
theorem runLoop_initChain_error_is_fatal :
    runLoop tEnv Shell.new
        [AbciMsg.initChain "a", AbciMsg.initChain "b", AbciMsg.getInfo] =
      ([Reply.ack], .error (.storageError "chain id already set")) := by
  rfl

/-- C6 (amended): every message other than `InitChain` is handled without
propagating an error out of the loop — handler errors are turned into reply
values — and a message list free of `InitChain` receives exactly one reply
per message; an `InitChain` handler error, however, escapes the loop before
the reply is sent, terminating it like a channel failure would. -/
theorem run_replies_once_except_initChain :
    (∀ (env : Env) (s : Shell) (m : AbciMsg),
        (∀ c, m ≠ AbciMsg.initChain c) →
        exceptIsOk (handleMsg env s m) = true) ∧
    (∀ (env : Env) (s : Shell) (msgs : List AbciMsg),
        (∀ c, AbciMsg.initChain c ∉ msgs) →
        (runLoop env s msgs).1.length = msgs.length) := by
  have key : ∀ (env : Env) (s : Shell) (m : AbciMsg),
      (∀ c, m ≠ AbciMsg.initChain c) →
      exceptIsOk (handleMsg env s m) = true := by
    intro env s m hm
    cases m with
    | getInfo => rfl
    | initChain c => exact absurd rfl (hm c)
    | mempoolValidate tx ty => rfl
    | beginBlock hash height => rfl
    | applyTx tx => rfl
    | endBlock height => rfl
    | commitBlock => rfl
  refine ⟨key, ?_⟩
  intro env s msgs
  induction msgs generalizing s with
  | nil => intro _; rfl
  | cons m rest ih =>
    intro hmem
    have hm : ∀ c, m ≠ AbciMsg.initChain c := by
      intro c hc
      exact hmem c (hc ▸ List.mem_cons_self m rest)
    have hok := key env s m hm
    rcases hh : handleMsg env s m with e | ⟨r, s'⟩
    · rw [hh] at hok
      exact absurd hok (by simp [exceptIsOk])
    · have hrest : ∀ c, AbciMsg.initChain c ∉ rest := by
        intro c hc
        exact hmem c (List.mem_cons_of_mem m hc)
      simp only [runLoop, hh, List.length_cons]
      exact congrArg Nat.succ (ih s' hrest)

/-- C6 witness: the reply theorem applied to a concrete non-`InitChain`
message and a concrete `InitChain`-free message list: `CommitBlock` is
handled without a loop error, and two messages get exactly two replies. -/
theorem run_replies_once_except_initChain_witness :
    exceptIsOk (handleMsg tEnv Shell.new AbciMsg.commitBlock) = true ∧
    (runLoop tEnv Shell.new [AbciMsg.getInfo, AbciMsg.commitBlock]).1.length =
      2 := by
  constructor
  · exact run_replies_once_except_initChain.1 tEnv Shell.new
      AbciMsg.commitBlock (fun c hc => AbciMsg.noConfusion hc)
  · exact run_replies_once_except_initChain.2 tEnv Shell.new
      [AbciMsg.getInfo, AbciMsg.commitBlock] (by intro c hc; simp at hc)

end AnomaShell
